import Mathlib

/-!
Shallow embedding of the testpoint ingestion pipeline of
`luogu_testpoint/main.py` (the `TestPointViewer` loading methods and the
`ConfigManager` path-list persistence), together with proofs about the
spec's claims.

Modelling conventions:
* Python `str` values are Lean `String`s.  File paths are represented in
  normalised form as a pair of `dir` (the result of `os.path.dirname`) and
  `base` (the result of `os.path.basename`), so `os.path.normpath` is the
  identity on the represented paths and `os.path.join dir base` is the pair
  itself.
* The filesystem is a finite list of entries.  A file's contents are given
  as the result of the mode in which the program reads them: `.text s` is a
  file whose text-mode read (with `errors='ignore'`) yields `s`, `.json v`
  is a file that `json.load` parses to the value `v`, `.badJson` is a file
  on which `json.load` raises (malformed JSON or undecodable UTF-8), and
  `.unreadable` is a file whose `open` raises (e.g. permission error).
  In the program each file is only ever read in one of the two modes
  (text reads happen only for non-`.json` extensions, `json.load` only for
  `.json`), so this per-file classification is faithful.
* Python's built-in `hash` on strings is salted with a per-process random
  value, so it is modelled as an explicit parameter `h : String → Int`;
  one process session corresponds to one fixed `h`.
* Python dicts are modelled as association lists with insertion-order
  semantics: assignment to an existing key replaces the value in place,
  assignment to a fresh key appends.  Keys coming from `json.load` are
  assumed unique, as `json.load` collapses duplicate keys.
* `re.match(r'.*\.(in|input)$', name, re.IGNORECASE)` is modelled as a
  case-insensitive ends-with test.  (The Python regex additionally refuses
  names with an embedded newline and accepts one trailing newline; no claim
  concerns such names.)
* Values stored in a testpoint record are Python objects; they are `str`s
  for text imports and arbitrary JSON values for JSON imports, so record
  fields are modelled as `JValue`.
* JSON numbers are modelled as integers; floating-point literals do not
  occur in any claim.
-/

/-- A parsed JSON value (the possible results of `json.load`). -/
inductive JValue where
  | null
  | bool (b : Bool)
  | num (n : Int)
  | str (s : String)
  | arr (elems : List JValue)
  | obj (fields : List (String × JValue))

/-- A testpoint record: the dict `{'input': ..., 'output': ...}` stored in
`self.testpoint_data`. -/
structure TPRecord where
  input : JValue
  output : JValue

/-- `self.testpoint_data`: a Python dict from identifier to record,
as an insertion-ordered association list. -/
abbrev Store := List (String × TPRecord)

/-- Python `d[k]` lookup (`None`-free: `Option`). -/
def dlookup : Store → String → Option TPRecord
  | [], _ => none
  | (k1, v1) :: rest, k => if k1 == k then some v1 else dlookup rest k

/-- Python `k in d`. -/
def dcontains (d : Store) (k : String) : Bool :=
  (dlookup d k).isSome

/-- Python `d[k] = v`: replace in place if the key exists, else append. -/
def dinsert : Store → String → TPRecord → Store
  | [], k, v => [(k, v)]
  | (k1, v1) :: rest, k, v =>
    if k1 == k then (k1, v) :: rest else (k1, v1) :: dinsert rest k v

/-- Python `d.update(new)`. -/
def dupdate (d : Store) (new : Store) : Store :=
  new.foldl (fun acc kv => dinsert acc kv.1 kv.2) d

/-- Python `self.testpoint_data[k]['input'] = v` (in-place field mutation of
the record stored under an existing key). -/
def dpatchInput (d : Store) (k : String) (v : JValue) : Store :=
  d.map (fun e => if e.1 == k then (e.1, { e.2 with input := v }) else e)

/-- Python `self.testpoint_data[k]['output'] = v`. -/
def dpatchOutput (d : Store) (k : String) (v : JValue) : Store :=
  d.map (fun e => if e.1 == k then (e.1, { e.2 with output := v }) else e)

/-- String-to-string dict (used for `input_map` / `output_map`). -/
abbrev SMap := List (String × String)

def slookup : SMap → String → Option String
  | [], _ => none
  | (k1, v1) :: rest, k => if k1 == k then some v1 else slookup rest k

def sinsert : SMap → String → String → SMap
  | [], k, v => [(k, v)]
  | (k1, v1) :: rest, k, v =>
    if k1 == k then (k1, v) :: rest else (k1, v1) :: sinsert rest k v

/-- ASCII lowercasing, character by character (`str.lower()` restricted to
the ASCII range used by the extension patterns). -/
def strLower (s : String) : String :=
  String.mk (s.data.map Char.toLower)

/-- Remove the last `n` characters (`os.path` style, over characters). -/
def strDropRight (s : String) (n : Nat) : String :=
  String.mk (s.data.take (s.data.length - n))

/-- Case-insensitive ends-with: `s` lowercased ends with the (lowercase)
pattern `pat`.  This models the anchored regex tests
`re.match(r'.*\.(ext)$', s, re.IGNORECASE)` and the anchored
`re.sub(r'\.(ext)$', ..., flags=re.IGNORECASE)` match condition. -/
def strEndsWithCI (s pat : String) : Bool :=
  (strLower s).data.reverse.take pat.data.length == pat.data.reverse

/-- `re.match(r'.*\.(in|input)$', name, re.IGNORECASE)` (main.py:549,560,630). -/
def isInName (name : String) : Bool :=
  strEndsWithCI name ".in" || strEndsWithCI name ".input"

/-- `re.match(r'.*\.(out|ans|output)$', name, re.IGNORECASE)` (main.py:552,578,631). -/
def isOutName (name : String) : Bool :=
  strEndsWithCI name ".out" || strEndsWithCI name ".ans" || strEndsWithCI name ".output"

/-- `re.sub(r'\.(in|input)$', '.out', path, flags=re.IGNORECASE)` acting on
the base name (the anchored pattern can only match inside the final path
component).  The two alternatives cannot both match, so testing `.input`
first is equivalent to the regex's left-to-right alternation. -/
def subInToOut (name : String) : String :=
  if strEndsWithCI name ".input" then strDropRight name 6 ++ ".out"
  else if strEndsWithCI name ".in" then strDropRight name 3 ++ ".out"
  else name

/-- `re.sub(r'\.(in|input)$', '.ans', path, flags=re.IGNORECASE)`. -/
def subInToAns (name : String) : String :=
  if strEndsWithCI name ".input" then strDropRight name 6 ++ ".ans"
  else if strEndsWithCI name ".in" then strDropRight name 3 ++ ".ans"
  else name

/-- `re.sub(r'\.(out|ans|output)$', '.in', path, flags=re.IGNORECASE)`. -/
def subOutToIn (name : String) : String :=
  if strEndsWithCI name ".output" then strDropRight name 7 ++ ".in"
  else if strEndsWithCI name ".out" then strDropRight name 4 ++ ".in"
  else if strEndsWithCI name ".ans" then strDropRight name 4 ++ ".in"
  else name

/-- `re.sub(r'\.(out|ans|output)$', '.input', path, flags=re.IGNORECASE)`. -/
def subOutToInput (name : String) : String :=
  if strEndsWithCI name ".output" then strDropRight name 7 ++ ".input"
  else if strEndsWithCI name ".out" then strDropRight name 4 ++ ".input"
  else if strEndsWithCI name ".ans" then strDropRight name 4 ++ ".input"
  else name

/-- Index of the last `'.'` in the char list, if any. -/
def lastDotIdx (cs : List Char) : Option Nat :=
  (cs.foldl (fun (st : Nat × Option Nat) c =>
    (st.1 + 1, if c == '.' then some st.1 else st.2)) (0, none)).2

/-- `os.path.splitext` applied to a base name: split off the extension at
the last dot, except that a dot with only dots before it (within the base
name) starts no extension (`".in"` has no extension, `"a..in"` has `".in"`). -/
def pySplitext (s : String) : String × String :=
  match lastDotIdx s.data with
  | none => (s, "")
  | some i =>
    if (s.data.take i).all (fun c => c == '.') then (s, "")
    else (String.mk (s.data.take i), String.mk (s.data.drop i))

/-- The stem (`os.path.splitext(...)[0]`, "filename without extension"). -/
def pyStem (s : String) : String := (pySplitext s).1

/-- The extension (`os.path.splitext(...)[1]`). -/
def pyExt (s : String) : String := (pySplitext s).2

/-- Python `str(...)` of a JSON-originated value, as used in the f-strings
of `load_json_testpoints`.  The container cases are approximations (no
claim exercises a non-scalar here). -/
def pyStr : JValue → String
  | .null => "None"
  | .bool true => "True"
  | .bool false => "False"
  | .num n => toString n
  | .str s => s
  | .arr _ => "[...]"
  | .obj _ => "\x7b...\x7d"

/-- An absolute file path, normalised into directory and base name. -/
structure PyPath where
  dir : String
  base : String
deriving DecidableEq

/-- Contents of a file, classified by how the program reads it (see the
module docstring). -/
inductive FileData where
  | text (s : String)
  | json (v : JValue)
  | badJson
  | unreadable

/-- One file on disk. -/
structure FSEntry where
  dir : String
  base : String
  data : FileData

/-- The filesystem: a finite list of files. -/
abbrev FS := List FSEntry

/-- `os.path.exists`. -/
def pexists (fs : FS) (p : PyPath) : Bool :=
  fs.any (fun e => e.dir == p.dir && e.base == p.base)

/-- `os.listdir`: base names of the entries of a directory, in filesystem
order.  (In the program this is only called on the directory of a file
that was just read, so the directory exists; a raising `os.listdir` is not
modelled.) -/
def listdir (fs : FS) (d : String) : List String :=
  (fs.filter (fun e => e.dir == d)).map (fun e => e.base)

/-- `open(path, 'r', encoding='utf-8', errors='ignore').read()`: succeeds
with the (lossily decoded) text for any readable file; raises only if the
file cannot be opened. -/
def readTextIgnore (fs : FS) (p : PyPath) : Except Unit String :=
  match fs.find? (fun e => e.dir == p.dir && e.base == p.base) with
  | some e =>
    match e.data with
    | .text s => .ok s
    | .json _ => .error ()
    | .badJson => .error ()
    | .unreadable => .error ()
  | none => .error ()

/-- `json.load(open(path, 'r', encoding='utf-8'))`: the parsed value, or an
exception (missing file, unreadable file, undecodable bytes, malformed
JSON). -/
def readJson (fs : FS) (p : PyPath) : Except Unit JValue :=
  match fs.find? (fun e => e.dir == p.dir && e.base == p.base) with
  | some e =>
    match e.data with
    | .json v => .ok v
    | _ => .error ()
  | none => .error ()

/-- main.py:576 — the sentinel stored when no companion output file exists. -/
def noOutputSentinel : String := "未找到对应的输出文件"

/-- main.py:593 — the sentinel stored when no companion input file exists. -/
def noInputSentinel : String := "未找到对应的输入文件"

/-- The directory-hash prefix `str(abs(hash(dir)) % 10000)` (main.py:543,616). -/
def dirHashStr (h : String → Int) (d : String) : String :=
  toString ((h d).natAbs % 10000)

/-- `TestPointViewer.load_text_testpoints` (main.py:529-604): classify a
plain-text file, patch an existing record or create a new one with
companion lookup.  Errors are the exceptions that escape to the caller. -/
def load_text_testpoints (h : String → Int) (fs : FS) (p : PyPath)
    (data : Store) : Except Unit Store :=
  match readTextIgnore fs p with
  | .error e => .error e
  | .ok content =>
    let base_name := p.base
    let name_without_ext := pyStem base_name
    let dir_hash := dirHashStr h p.dir
    let unique_name := dir_hash ++ "_" ++ name_without_ext
    if dcontains data unique_name then
      if isInName base_name then .ok (dpatchInput data unique_name (.str content))
      else if isOutName base_name then .ok (dpatchOutput data unique_name (.str content))
      else .ok (dpatchInput data unique_name (.str content))
    else if isInName base_name then
      let output_file := subInToOut base_name
      let output_file :=
        if pexists fs ⟨p.dir, output_file⟩ then output_file else subInToAns base_name
      if pexists fs ⟨p.dir, output_file⟩ then
        match readTextIgnore fs ⟨p.dir, output_file⟩ with
        | .error e => .error e
        | .ok output_content =>
          .ok (dupdate data [(unique_name, ⟨.str content, .str output_content⟩)])
      else
        .ok (dupdate data [(unique_name, ⟨.str content, .str noOutputSentinel⟩)])
    else if isOutName base_name then
      let input_file := subOutToIn base_name
      let input_file :=
        if pexists fs ⟨p.dir, input_file⟩ then input_file else subOutToInput base_name
      if pexists fs ⟨p.dir, input_file⟩ then
        match readTextIgnore fs ⟨p.dir, input_file⟩ with
        | .error e => .error e
        | .ok input_content =>
          .ok (dupdate data [(unique_name, ⟨.str input_content, .str content⟩)])
      else
        .ok (dupdate data [(unique_name, ⟨.str noInputSentinel, .str content⟩)])
    else
      .ok (dupdate data [(unique_name, ⟨.str content, .str ""⟩)])

/-- Lookup in a JSON object's fields (`json.load` yields unique keys). -/
def jLookup : List (String × JValue) → String → Option JValue
  | [], _ => none
  | (k1, v1) :: rest, k => if k1 == k then some v1 else jLookup rest k

/-- Python `obj.get(k, dflt)` on a JSON object. -/
def jGet (fields : List (String × JValue)) (k : String) (dflt : JValue) : JValue :=
  match jLookup fields k with
  | some v => v
  | none => dflt

/-- Is the value a JSON object (a Python `dict`)? -/
def jIsObj : JValue → Bool
  | .obj _ => true
  | _ => false

/-- Python iteration `for x in v` over the object stored under
`'testCases'`.  A list yields its elements; an empty dict or empty string
yields nothing; a non-empty dict yields string keys and a non-empty string
yields 1-char strings, on which the loop body's `.get` raises
`AttributeError` at the first element; numbers, booleans and `None` are not
iterable (`TypeError`).  The error cases are collapsed into `.error`. -/
def pyIterElems : JValue → Except Unit (List JValue)
  | .arr l => .ok l
  | .obj l => if l.isEmpty then .ok [] else .error ()
  | .str s => if s.isEmpty then .ok [] else .error ()
  | _ => .error ()

/-- The `testCases` loop (main.py:495-502): each element must be a dict
(`test_case.get` raises otherwise); record named
`f"{base_name}_测试点_{i+1}"`. -/
def tcLoop (base_name : String) : List JValue → Nat → Store → Except Unit Store
  | [], _, acc => .ok acc
  | .obj o :: rest, i, acc =>
    tcLoop base_name rest (i + 1)
      (dinsert acc (base_name ++ "_测试点_" ++ toString (i + 1))
        ⟨jGet o "input" (.str ""), jGet o "output" (.str "")⟩)
  | _ :: _, _, _ => .error ()

/-- The other-dict-format loop (main.py:504-513): values that are not dicts
are skipped; record named `f"{base_name}_{name}"`. -/
def mapLoop (base_name : String) : List (String × JValue) → Store → Store
  | [], acc => acc
  | (name, .obj o) :: rest, acc =>
    mapLoop base_name rest
      (dinsert acc (base_name ++ "_" ++ name)
        ⟨jGet o "input" (.str ""), jGet o "output" (.str "")⟩)
  | _ :: rest, acc => mapLoop base_name rest acc

/-- The list-format loop (main.py:514-524): non-dict elements are skipped
(the index still advances); record named
`f"{base_name}_{item.get('name', f"测试点_{i+1}")}"`. -/
def arrLoop (base_name : String) : List JValue → Nat → Store → Store
  | [], _, acc => acc
  | .obj o :: rest, i, acc =>
    let item_name :=
      match jLookup o "name" with
      | some v => pyStr v
      | none => "测试点_" ++ toString (i + 1)
    arrLoop base_name rest (i + 1)
      (dinsert acc (base_name ++ "_" ++ item_name)
        ⟨jGet o "input" (.str ""), jGet o "output" (.str "")⟩)
  | _ :: rest, i, acc => arrLoop base_name rest (i + 1) acc

/-- `TestPointViewer.load_json_testpoints` (main.py:482-527). -/
def load_json_testpoints (fs : FS) (p : PyPath) (data : Store) :
    Except Unit Store :=
  match readJson fs p with
  | .error e => .error e
  | .ok v =>
    let base_name := p.base
    match v with
    | .obj fields =>
      match jLookup fields "testCases" with
      | some tc =>
        match pyIterElems tc with
        | .error e => .error e
        | .ok l =>
          match tcLoop base_name l 0 [] with
          | .error e => .error e
          | .ok new_tp => .ok (dupdate data new_tp)
      | none => .ok (dupdate data (mapLoop base_name fields []))
    | .arr items => .ok (dupdate data (arrLoop base_name items 0 []))
    | _ => .ok (dupdate data [])

/-- First loop of `find_related_testpoints` (main.py:649-674): for each key
of `input_map` (in insertion order), skip if the identifier is already in
the store or the base name was processed; otherwise read the input file,
read the output companion if `output_map` has one (else the sentinel), and
insert the record into `new_testpoints`.  A failing read aborts the whole
method (exception). -/
def frInputLoop (fs : FS) (dir_path dir_hash : String) (data : Store)
    (input_map output_map : SMap) :
    List String → List String → Store → Except Unit (List String × Store)
  | [], processed, acc => .ok (processed, acc)
  | base_name :: rest, processed, acc =>
    let unique_name := dir_hash ++ "_" ++ base_name
    if dcontains data unique_name || processed.contains base_name then
      frInputLoop fs dir_path dir_hash data input_map output_map rest processed acc
    else
      match slookup input_map base_name with
      | none => .error ()
      | some in_file =>
        match readTextIgnore fs ⟨dir_path, in_file⟩ with
        | .error e => .error e
        | .ok input_content =>
          match slookup output_map base_name with
          | some out_file =>
            match readTextIgnore fs ⟨dir_path, out_file⟩ with
            | .error e => .error e
            | .ok output_content =>
              frInputLoop fs dir_path dir_hash data input_map output_map rest
                (processed ++ [base_name])
                (dinsert acc unique_name ⟨.str input_content, .str output_content⟩)
          | none =>
            frInputLoop fs dir_path dir_hash data input_map output_map rest
              (processed ++ [base_name])
              (dinsert acc unique_name ⟨.str input_content, .str noOutputSentinel⟩)

/-- Second loop of `find_related_testpoints` (main.py:676-696): output-only
testpoints. -/
def frOutputLoop (fs : FS) (dir_path dir_hash : String) (data : Store)
    (output_map input_map : SMap) (processed : List String) :
    List String → Store → Except Unit Store
  | [], acc => .ok acc
  | base_name :: rest, acc =>
    if processed.contains base_name || (slookup input_map base_name).isSome then
      frOutputLoop fs dir_path dir_hash data output_map input_map processed rest acc
    else
      let unique_name := dir_hash ++ "_" ++ base_name
      if dcontains data unique_name then
        frOutputLoop fs dir_path dir_hash data output_map input_map processed rest acc
      else
        match slookup output_map base_name with
        | none => .error ()
        | some out_file =>
          match readTextIgnore fs ⟨dir_path, out_file⟩ with
          | .error e => .error e
          | .ok output_content =>
            frOutputLoop fs dir_path dir_hash data output_map input_map processed rest
              (dinsert acc unique_name ⟨.str noInputSentinel, .str output_content⟩)

/-- `TestPointViewer.find_related_testpoints` (main.py:606-699): scan the
directory of `p` for files with the same stem, classify them with the
input/output regexes, and add records for pairs or singletons whose
identifier is not already present.  `self.testpoint_data` is only updated
at the very end, so an exception leaves it unchanged. -/
def find_related_testpoints (h : String → Int) (fs : FS) (p : PyPath)
    (data : Store) : Except Unit Store :=
  let dir_path := p.dir
  let files := listdir fs dir_path
  let dir_hash := dirHashStr h dir_path
  let current_file_name := pyStem p.base
  let related_files := files.filter (fun f => pyStem f == current_file_name)
  let input_files := related_files.filter (fun f => isInName f)
  let output_files := related_files.filter (fun f => isOutName f)
  let input_map := input_files.foldl (fun m f => sinsert m (pyStem f) f) []
  let output_map := output_files.foldl (fun m f => sinsert m (pyStem f) f) []
  match frInputLoop fs dir_path dir_hash data input_map output_map
      (input_map.map Prod.fst) [] [] with
  | .error e => .error e
  | .ok (processed, new_tp) =>
    match frOutputLoop fs dir_path dir_hash data output_map input_map processed
        (output_map.map Prod.fst) new_tp with
    | .error e => .error e
    | .ok new_tp2 => .ok (dupdate data new_tp2)

/-- The deduplication loop of `ConfigManager.save_testpoint_paths`
(main.py:103-111): keep paths that exist on disk and whose stem was not
seen before. -/
def dedupPathsGo (fs : FS) : List PyPath → List String → List PyPath
  | [], _ => []
  | p :: rest, bases =>
    if pexists fs p then
      let b := pyStem p.base
      if bases.contains b then dedupPathsGo fs rest bases
      else p :: dedupPathsGo fs rest (b :: bases)
    else dedupPathsGo fs rest bases

/-- `ConfigManager.save_testpoint_paths` (main.py:93-117): the list that is
written to `testpoints.json`. -/
def save_testpoint_paths (fs : FS) (paths : List PyPath) : List PyPath :=
  dedupPathsGo fs paths []

/-- `ConfigManager.load_testpoint_paths` (main.py:119-145): the persisted
list, filtered to paths that still exist (paths are represented normalised,
so `os.path.normpath` is the identity). -/
def load_testpoint_paths (fs : FS) (saved : List PyPath) : List PyPath :=
  saved.filter (fun q => pexists fs q)

/-- `TestPointViewer.save_testpoints_data` (main.py:1411-1447), with
`self.current_file = current_file`: the new contents of `testpoints.json`. -/
def save_testpoints_data (fs : FS) (current_file : PyPath)
    (saved : List PyPath) : List PyPath :=
  let testpoint_paths := load_testpoint_paths fs saved
  let testpoint_paths :=
    if pexists fs current_file then
      if testpoint_paths.contains current_file then testpoint_paths
      else if testpoint_paths.any
          (fun q => pyStem q.base == pyStem current_file.base) then
        testpoint_paths
      else testpoint_paths ++ [current_file]
    else testpoint_paths
  let unique_paths := dedupPathsGo fs testpoint_paths []
  save_testpoint_paths fs unique_paths

/-- The observable state: the in-memory mapping and the persisted
`testpoints.json` contents. -/
structure AppState where
  data : Store
  savedPaths : List PyPath

/-- What `load_testpoints` reports: the "已加载相同测试点数据" info box, the
"加载测试点数据失败" error box, or success with the newly added identifiers
(in mapping order). -/
inductive LoadResult where
  | duplicate
  | loadError
  | loaded (newNames : List String)
deriving DecidableEq

/-- `TestPointViewer.load_testpoints` (main.py:403-480), with
`self.current_file = p` (as set by `select_file`).  Mirrors the control
flow: early duplicate-path return; base-name duplicate check guarding only
the path-list append; text/JSON load; companion discovery; the
"no new identifiers" duplicate report; and the final
`save_testpoints_data`.  The surrounding `try` reports any exception after
the mutations performed so far. -/
def load_testpoints (h : String → Int) (fs : FS) (p : PyPath)
    (st : AppState) : AppState × LoadResult :=
  let testpoint_paths := load_testpoint_paths fs st.savedPaths
  if testpoint_paths.contains p then (st, .duplicate)
  else
    let current_file_base := pyStem p.base
    let is_duplicate :=
      testpoint_paths.any (fun q => pyStem q.base == current_file_base)
    let st1 :=
      if is_duplicate then st
      else { st with savedPaths := save_testpoint_paths fs (testpoint_paths ++ [p]) }
    let current_data := st1.data
    let file_ext := strLower (pyExt p.base)
    let r1 :=
      if file_ext == ".json" then load_json_testpoints fs p st1.data
      else load_text_testpoints h fs p st1.data
    match r1 with
    | .error _ => (st1, .loadError)
    | .ok d1 =>
      match find_related_testpoints h fs p d1 with
      | .error _ => ({ st1 with data := d1 }, .loadError)
      | .ok d2 =>
        let new_names :=
          (d2.map Prod.fst).filter (fun k => !dcontains current_data k)
        if new_names.isEmpty then ({ st1 with data := d2 }, .duplicate)
        else
          (⟨d2, save_testpoints_data fs p st1.savedPaths⟩, .loaded new_names)

/-!
Byte-level model of the text reads.  Every text-mode `open` in the loaders
passes `errors='ignore'` (main.py:531,567,585,661,668,690), so decoding a
file's raw bytes is a *total* function of the bytes: undecodable byte
sequences are dropped instead of raising `UnicodeDecodeError`.  The decoder
below implements UTF-8 with the ignore handler (the exact number of bytes
skipped per invalid sequence approximates CPython's error ranges; no claim
depends on it).  A file whose on-disk bytes are `bs` is represented in the
`FS` model as `.text (utf8DecodeIgnore bs)`.
-/

/-- Is the byte a UTF-8 continuation byte? -/
def isContByte (b : Nat) : Bool := 128 ≤ b && b ≤ 191

/-- Valid range of the first continuation byte after a 3-byte leader. -/
def cont3Ok (b b2 : Nat) : Bool :=
  if b == 224 then 160 ≤ b2 && b2 ≤ 191
  else if b == 237 then 128 ≤ b2 && b2 ≤ 159
  else isContByte b2

/-- Valid range of the first continuation byte after a 4-byte leader. -/
def cont4Ok (b b2 : Nat) : Bool :=
  if b == 240 then 144 ≤ b2 && b2 ≤ 191
  else if b == 244 then 128 ≤ b2 && b2 ≤ 143
  else isContByte b2

/-- UTF-8 decoding with the `'ignore'` error handler: total on all byte
lists, dropping undecodable bytes.  The `fuel` argument (instantiated with
the list length, an upper bound on the number of decoding steps) only
makes the recursion structural; it never runs out. -/
def utf8DecodeIgnoreGo : Nat → List Nat → List Char
  | 0, _ => []
  | _, [] => []
  | fuel + 1, b :: rest =>
    if b < 128 then Char.ofNat b :: utf8DecodeIgnoreGo fuel rest
    else if 194 ≤ b && b ≤ 223 then
      match rest with
      | b2 :: rest2 =>
        if isContByte b2 then
          Char.ofNat ((b - 192) * 64 + (b2 - 128)) :: utf8DecodeIgnoreGo fuel rest2
        else utf8DecodeIgnoreGo fuel rest
      | [] => []
    else if 224 ≤ b && b ≤ 239 then
      match rest with
      | b2 :: b3 :: rest3 =>
        if cont3Ok b b2 && isContByte b3 then
          Char.ofNat ((b - 224) * 4096 + (b2 - 128) * 64 + (b3 - 128)) ::
            utf8DecodeIgnoreGo fuel rest3
        else utf8DecodeIgnoreGo fuel rest
      | _ => []
    else if 240 ≤ b && b ≤ 244 then
      match rest with
      | b2 :: b3 :: b4 :: rest4 =>
        if cont4Ok b b2 && isContByte b3 && isContByte b4 then
          Char.ofNat ((b - 240) * 262144 + (b2 - 128) * 4096 +
              (b3 - 128) * 64 + (b4 - 128)) :: utf8DecodeIgnoreGo fuel rest4
        else utf8DecodeIgnoreGo fuel rest
      | _ => []
    else utf8DecodeIgnoreGo fuel rest

/-- `bytes.decode('utf-8', errors='ignore')`. -/
def utf8DecodeIgnore (bs : List Nat) : String :=
  String.mk (utf8DecodeIgnoreGo bs.length bs)

/-- Strict UTF-8 decoding (`errors='strict'`, the default): `none` on any
invalid sequence.  Used to exhibit byte lists that are undecodable yet
still imported under the ignore handler. -/
def utf8DecodeStrictGo : Nat → List Nat → Option (List Char)
  | 0, _ => some []
  | _, [] => some []
  | fuel + 1, b :: rest =>
    if b < 128 then
      (utf8DecodeStrictGo fuel rest).map (fun cs => Char.ofNat b :: cs)
    else if 194 ≤ b && b ≤ 223 then
      match rest with
      | b2 :: rest2 =>
        if isContByte b2 then
          (utf8DecodeStrictGo fuel rest2).map
            (fun cs => Char.ofNat ((b - 192) * 64 + (b2 - 128)) :: cs)
        else none
      | [] => none
    else if 224 ≤ b && b ≤ 239 then
      match rest with
      | b2 :: b3 :: rest3 =>
        if cont3Ok b b2 && isContByte b3 then
          (utf8DecodeStrictGo fuel rest3).map
            (fun cs => Char.ofNat ((b - 224) * 4096 + (b2 - 128) * 64 + (b3 - 128)) :: cs)
        else none
      | _ => none
    else if 240 ≤ b && b ≤ 244 then
      match rest with
      | b2 :: b3 :: b4 :: rest4 =>
        if cont4Ok b b2 && isContByte b3 && isContByte b4 then
          (utf8DecodeStrictGo fuel rest4).map
            (fun cs => Char.ofNat ((b - 240) * 262144 + (b2 - 128) * 4096 +
              (b3 - 128) * 64 + (b4 - 128)) :: cs)
        else none
      | _ => none
    else none

/-- `bytes.decode('utf-8')` with the default strict handler. -/
def utf8DecodeStrict (bs : List Nat) : Option String :=
  (utf8DecodeStrictGo bs.length bs).map String.mk


/-! ### Helper lemmas about the dict model -/

theorem dlookup_isSome_of_eq {d : Store} {k : String} {r : TPRecord}
    (hlk : dlookup d k = some r) : dcontains d k = true := by
  simp [dcontains, hlk]

theorem dpatchInput_keys (d : Store) (k : String) (v : JValue) :
    (dpatchInput d k v).map Prod.fst = d.map Prod.fst := by
  unfold dpatchInput
  rw [List.map_map]
  apply List.map_congr_left
  intro e _
  by_cases hk : e.1 == k <;> simp [hk, Function.comp]

theorem dpatchOutput_keys (d : Store) (k : String) (v : JValue) :
    (dpatchOutput d k v).map Prod.fst = d.map Prod.fst := by
  unfold dpatchOutput
  rw [List.map_map]
  apply List.map_congr_left
  intro e _
  by_cases hk : e.1 == k <;> simp [hk, Function.comp]

theorem dcontains_keys_eq {d1 d2 : Store}
    (hk : d1.map Prod.fst = d2.map Prod.fst) (k : String) :
    dcontains d1 k = dcontains d2 k := by
  induction d1 generalizing d2 with
  | nil => cases d2 with
    | nil => rfl
    | cons e rest => simp at hk
  | cons e rest ih =>
    cases d2 with
    | nil => simp at hk
    | cons e2 rest2 =>
      simp only [List.map, List.cons.injEq] at hk
      simp only [dcontains, dlookup, hk.1]
      by_cases hke : e2.1 == k
      · simp [hke]
      · simp only [hke, if_neg, Bool.false_eq_true, ite_false]
        exact ih hk.2

theorem mem_keys_dcontains {d : Store} {k : String}
    (hm : k ∈ d.map Prod.fst) : dcontains d k = true := by
  induction d with
  | nil => simp at hm
  | cons e rest ih =>
    simp only [List.map, List.mem_cons] at hm
    rcases hm with hm | hm
    · simp [dcontains, dlookup, hm]
    · simp only [dcontains, dlookup]
      by_cases hke : e.1 == k
      · simp [hke]
      · simpa [hke, dcontains] using ih hm

/-- The keys of a store all pass the containment test, so the
"newly added identifiers" filter over them is empty. -/
theorem keys_filter_contained {d cur : Store}
    (hk : d.map Prod.fst = cur.map Prod.fst) :
    (d.map Prod.fst).filter (fun k => !dcontains cur k) = [] := by
  rw [List.filter_eq_nil_iff]
  intro k hm
  rw [hk] at hm
  simp [mem_keys_dcontains hm]

/-! ### The input/output extension classes are disjoint -/

theorem take_eq_of_take_eq {r p q : List Char} {m n : Nat}
    (hp : r.take m = p) (hq : r.take n = q)
    (hle : m ≤ n) : q.take m = p := by
  rw [← hq, List.take_take, Nat.min_eq_left hle, hp]

/-- A name matching the input regex cannot match the output regex. -/
theorem isOutName_eq_false_of_isInName {s : String}
    (hin : isInName s = true) : isOutName s = false := by
  unfold isInName strEndsWithCI at hin
  unfold isOutName strEndsWithCI
  rcases Bool.or_eq_true _ _ |>.mp hin with h1 | h1 <;>
    rw [beq_iff_eq] at h1 <;>
    simp only [Bool.or_eq_false_iff, beq_eq_false_iff_ne, ne_eq] <;>
    refine ⟨⟨fun h2 => ?_, fun h2 => ?_⟩, fun h2 => ?_⟩
  · exact absurd (take_eq_of_take_eq h1 h2 (by decide)) (by decide)
  · exact absurd (take_eq_of_take_eq h1 h2 (by decide)) (by decide)
  · exact absurd (take_eq_of_take_eq h1 h2 (by decide)) (by decide)
  · exact absurd (take_eq_of_take_eq h2 h1 (by decide)) (by decide)
  · exact absurd (take_eq_of_take_eq h2 h1 (by decide)) (by decide)
  · exact absurd (take_eq_of_take_eq h1 h2 (by decide)) (by decide)

/-! ### Lemmas about the path-list deduplication -/

theorem dedupPathsGo_sublist (fs : FS) :
    ∀ (l : List PyPath) (bases : List String),
      (dedupPathsGo fs l bases).Sublist l := by
  intro l
  induction l with
  | nil => intro bases; simp [dedupPathsGo]
  | cons q rest ih =>
    intro bases
    unfold dedupPathsGo
    by_cases hq : pexists fs q = true
    · rw [if_pos hq]
      by_cases hb : bases.contains (pyStem q.base) = true
      · rw [if_pos hb]
        exact (ih bases).cons q
      · rw [if_neg hb]
        exact (ih _).cons₂ q
    · rw [if_neg hq]
      exact (ih bases).cons q

theorem dedupPathsGo_exists (fs : FS) :
    ∀ (l : List PyPath) (bases : List String) (p : PyPath),
      p ∈ dedupPathsGo fs l bases → pexists fs p = true := by
  intro l
  induction l with
  | nil => intro bases p hp; simp [dedupPathsGo] at hp
  | cons q rest ih =>
    intro bases p hp
    unfold dedupPathsGo at hp
    by_cases hq : pexists fs q = true
    · rw [if_pos hq] at hp
      by_cases hb : bases.contains (pyStem q.base) = true
      · rw [if_pos hb] at hp
        exact ih bases p hp
      · rw [if_neg hb] at hp
        rcases List.mem_cons.mp hp with rfl | hp2
        · exact hq
        · exact ih _ p hp2
    · rw [if_neg hq] at hp
      exact ih bases p hp

/-- Core invariant: any element of the deduplicated list has a stem not yet
seen, and is exactly the first existing path in the input carrying its
stem. -/
theorem dedupPathsGo_first (fs : FS) :
    ∀ (l : List PyPath) (bases : List String) (p : PyPath),
      p ∈ dedupPathsGo fs l bases →
      pyStem p.base ∉ bases ∧
        (l.filter (fun q => pexists fs q &&
          (pyStem q.base == pyStem p.base))).head? = some p := by
  intro l
  induction l with
  | nil => intro bases p hp; simp [dedupPathsGo] at hp
  | cons q rest ih =>
    intro bases p hp
    unfold dedupPathsGo at hp
    by_cases hq : pexists fs q = true
    · rw [if_pos hq] at hp
      by_cases hb : bases.contains (pyStem q.base) = true
      · rw [if_pos hb] at hp
        obtain ⟨hnb, hfirst⟩ := ih bases p hp
        have hqb : pyStem q.base ∈ bases := List.elem_iff.mp hb
        have hne : (pyStem q.base == pyStem p.base) = false := by
          rw [beq_eq_false_iff_ne]
          intro he
          exact hnb (he ▸ hqb)
        refine ⟨hnb, ?_⟩
        rw [List.filter_cons]
        simp [hq, hne, hfirst]
      · rw [if_neg hb] at hp
        rcases List.mem_cons.mp hp with rfl | hp2
        · refine ⟨fun hc => hb (List.elem_iff.mpr hc), ?_⟩
          rw [List.filter_cons]
          simp [hq]
        · obtain ⟨hnb, hfirst⟩ := ih _ p hp2
          simp only [List.mem_cons, not_or] at hnb
          refine ⟨hnb.2, ?_⟩
          have hne : (pyStem q.base == pyStem p.base) = false := by
            rw [beq_eq_false_iff_ne]
            exact fun he => hnb.1 he.symm
          rw [List.filter_cons]
          simp [hq, hne, hfirst]
    · rw [if_neg hq] at hp
      obtain ⟨hnb, hfirst⟩ := ih bases p hp
      refine ⟨hnb, ?_⟩
      rw [List.filter_cons]
      have hqf : pexists fs q = false := by
        rw [← Bool.not_eq_true]
        exact hq
      simp [hqf, hfirst]

/-- The stems of the deduplicated list are pairwise distinct. -/
theorem dedupPathsGo_stems_nodup (fs : FS) :
    ∀ (l : List PyPath) (bases : List String),
      ((dedupPathsGo fs l bases).map (fun p => pyStem p.base)).Nodup := by
  intro l
  induction l with
  | nil => intro bases; simp [dedupPathsGo]
  | cons q rest ih =>
    intro bases
    unfold dedupPathsGo
    by_cases hq : pexists fs q = true
    · rw [if_pos hq]
      by_cases hb : bases.contains (pyStem q.base) = true
      · rw [if_pos hb]
        exact ih bases
      · rw [if_neg hb]
        simp only [List.map_cons, List.nodup_cons]
        refine ⟨?_, ih _⟩
        intro hmem
        obtain ⟨p, hp, hstem⟩ := List.mem_map.mp hmem
        have hnb := (dedupPathsGo_first fs rest _ p hp).1
        refine hnb ?_
        rw [hstem]
        exact List.mem_cons_self _ _
    · rw [if_neg hq]
      exact ih bases

/-- Deduplication is the identity on an already-deduplicated list of
existing paths whose stems avoid `bases`. -/
theorem dedupPathsGo_id (fs : FS) :
    ∀ (l : List PyPath) (bases : List String),
      (∀ q ∈ l, pexists fs q = true) →
      ((l.map (fun p => pyStem p.base)).Nodup) →
      (∀ q ∈ l, pyStem q.base ∉ bases) →
      dedupPathsGo fs l bases = l := by
  intro l
  induction l with
  | nil => intro bases _ _ _; rfl
  | cons q rest ih =>
    intro bases hex hnd hnb
    unfold dedupPathsGo
    have hq : pexists fs q = true := hex q (List.mem_cons_self _ _)
    have hqb : pyStem q.base ∉ bases := hnb q (List.mem_cons_self _ _)
    have hb : ¬ bases.contains (pyStem q.base) = true :=
      fun hc => hqb (List.elem_iff.mp hc)
    rw [if_pos hq, if_neg hb]
    congr 1
    simp only [List.map_cons, List.nodup_cons] at hnd
    refine ih _ (fun r hr => hex r (List.mem_cons_of_mem _ hr)) hnd.2 ?_
    intro r hr
    simp only [List.mem_cons, not_or]
    constructor
    · intro he
      exact hnd.1 (he ▸ List.mem_map_of_mem _ hr)
    · exact hnb r (List.mem_cons_of_mem _ hr)

/-- A path with a fresh stem appended at the end of the list survives
deduplication. -/
theorem mem_dedupPathsGo_append_last (fs : FS) (p : PyPath)
    (hex : pexists fs p = true) :
    ∀ (l : List PyPath) (bases : List String),
      (∀ q ∈ l, pyStem q.base ≠ pyStem p.base) →
      pyStem p.base ∉ bases →
      p ∈ dedupPathsGo fs (l ++ [p]) bases := by
  intro l
  induction l with
  | nil =>
    intro bases _ hnb
    have hb : ¬ bases.contains (pyStem p.base) = true :=
      fun hc => hnb (List.elem_iff.mp hc)
    simp only [List.nil_append]
    unfold dedupPathsGo
    rw [if_pos hex, if_neg hb]
    exact List.mem_cons_self _ _
  | cons q rest ih =>
    intro bases hne hnb
    simp only [List.cons_append]
    unfold dedupPathsGo
    by_cases hq : pexists fs q = true
    · rw [if_pos hq]
      by_cases hb : bases.contains (pyStem q.base) = true
      · rw [if_pos hb]
        exact ih bases (fun r hr => hne r (List.mem_cons_of_mem _ hr)) hnb
      · rw [if_neg hb]
        refine List.mem_cons_of_mem _ ?_
        refine ih _ (fun r hr => hne r (List.mem_cons_of_mem _ hr)) ?_
        simp only [List.mem_cons, not_or]
        exact ⟨fun he => hne q (List.mem_cons_self _ _) he.symm, hnb⟩
    · rw [if_neg hq]
      exact ih bases (fun r hr => hne r (List.mem_cons_of_mem _ hr)) hnb

/-! ### Claims -/

/-- C1 (counterexample).  Importing `a/foo.in` and then `b/foo.out`
(different directories, same base name `foo`, in a session whose
directory hashes differ): contrary to the claim, the second import is NOT
rejected as a duplicate no-op — a record keyed by the second path's
directory-hash identifier `1_foo` IS added and the import reports success
with that new identifier. -/
theorem C1_counterexample :
    dcontains
      (load_testpoints (fun s => if s == "b" then (1 : Int) else 0)
        [⟨"a", "foo.in", .text "1"⟩, ⟨"b", "foo.out", .text "2"⟩]
        ⟨"b", "foo.out"⟩
        (load_testpoints (fun s => if s == "b" then (1 : Int) else 0)
          [⟨"a", "foo.in", .text "1"⟩, ⟨"b", "foo.out", .text "2"⟩]
          ⟨"a", "foo.in"⟩ ⟨[], []⟩).1).1.data "1_foo" = true
    ∧ (load_testpoints (fun s => if s == "b" then (1 : Int) else 0)
        [⟨"a", "foo.in", .text "1"⟩, ⟨"b", "foo.out", .text "2"⟩]
        ⟨"b", "foo.out"⟩
        (load_testpoints (fun s => if s == "b" then (1 : Int) else 0)
          [⟨"a", "foo.in", .text "1"⟩, ⟨"b", "foo.out", .text "2"⟩]
          ⟨"a", "foo.in"⟩ ⟨[], []⟩).1).2 = .loaded ["1_foo"] := by
  decide

/-- C1 (amended).  When a different path with the same base name is already
registered, the base-name duplicate check only suppresses the
`SourcePathList` append: the persisted path list keeps only the first
path, but the import itself still proceeds — the second path's records are
merged under its own directory-hash identifier and reported as newly
loaded (here in a session where the two directories hash to buckets 0 and
1). -/
theorem C1_amended (c1 c2 : String) :
    load_testpoints (fun s => if s == "b" then (1 : Int) else 0)
      [⟨"a", "foo.in", .text c1⟩, ⟨"b", "foo.out", .text c2⟩]
      ⟨"b", "foo.out"⟩
      (load_testpoints (fun s => if s == "b" then (1 : Int) else 0)
        [⟨"a", "foo.in", .text c1⟩, ⟨"b", "foo.out", .text c2⟩]
        ⟨"a", "foo.in"⟩ ⟨[], []⟩).1
    = (⟨[("0_foo", ⟨.str c1, .str noOutputSentinel⟩),
         ("1_foo", ⟨.str noInputSentinel, .str c2⟩)],
        [⟨"a", "foo.in"⟩]⟩, .loaded ["1_foo"]) := by
  have h1 : load_testpoints (fun s => if s == "b" then (1 : Int) else 0)
      [⟨"a", "foo.in", .text c1⟩, ⟨"b", "foo.out", .text c2⟩]
      ⟨"a", "foo.in"⟩ ⟨[], []⟩
      = (⟨[("0_foo", ⟨.str c1, .str noOutputSentinel⟩)], [⟨"a", "foo.in"⟩]⟩,
         .loaded ["0_foo"]) := rfl
  rw [h1]
  rfl

/-- C2 (counterexample).  Importing `a/bad.json`, a file on which
`json.load` raises: the import fails with an error report and the mapping
is unchanged, but — contrary to the claim — the persisted
`SourcePathList`, which was empty before the call, now contains the failed
path: it was appended and persisted before the load was attempted. -/
theorem C2_counterexample :
    load_testpoints (fun _ => (0 : Int)) [⟨"a", "bad.json", .badJson⟩]
      ⟨"a", "bad.json"⟩ ⟨[], []⟩
    = (⟨[], [⟨"a", "bad.json"⟩]⟩, .loadError) := by
  rfl

/-- C2 (amended).  For a path whose import fails with a recoverable error
(malformed JSON, unreadable file), the identifier-to-record mapping is
exactly as before the call and the user is informed of the error; but the
path list is NOT left unchanged: the failed path (not being a duplicate)
is appended to the persisted `SourcePathList` before loading is attempted,
so it remains there after the failure. -/
theorem C2_amended (d : Store) :
    load_testpoints (fun _ => (0 : Int))
      [⟨"a", "bad.json", .badJson⟩, ⟨"a", "locked.txt", .unreadable⟩]
      ⟨"a", "bad.json"⟩ ⟨d, []⟩
    = (⟨d, [⟨"a", "bad.json"⟩]⟩, .loadError)
    ∧ load_testpoints (fun _ => (0 : Int))
      [⟨"a", "bad.json", .badJson⟩, ⟨"a", "locked.txt", .unreadable⟩]
      ⟨"a", "locked.txt"⟩ ⟨d, []⟩
    = (⟨d, [⟨"a", "locked.txt"⟩]⟩, .loadError) := by
  exact ⟨rfl, rfl⟩

/-- C3 (counterexample).  The identifier of a plain-text path is NOT stable
across process sessions: two sessions whose string-hash functions assign
the path's directory to different buckets (here 0 and 7) produce different
identifiers for the very same path, so a file re-imported after a restart
generally maps to a fresh record. -/
theorem C3_counterexample :
    (load_testpoints (fun _ => (0 : Int)) [⟨"d", "x.in", .text "1"⟩]
      ⟨"d", "x.in"⟩ ⟨[], []⟩).1.data.map Prod.fst = ["0_x"]
    ∧ (load_testpoints (fun _ => (7 : Int)) [⟨"d", "x.in", .text "1"⟩]
      ⟨"d", "x.in"⟩ ⟨[], []⟩).1.data.map Prod.fst = ["7_x"]
    ∧ "0_x" ≠ "7_x" := by
  decide

/-- C3 (amended).  Within one process session (one fixed hash function
`h`), the identifier is stable: importing `d/x.in`, and later in the same
session importing the companion `d/x.out` that has appeared on disk,
resolves to the same identifier, so the existing record is patched in
place (one single record, both halves populated) instead of a new entry
being created.  (Stability across sessions fails; see the
counterexample.) -/
theorem C3_amended (h : String → Int) (c1 c2 : String) :
    load_testpoints h
      [⟨"d", "x.in", .text c1⟩, ⟨"d", "x.out", .text c2⟩]
      ⟨"d", "x.out"⟩
      (load_testpoints h [⟨"d", "x.in", .text c1⟩] ⟨"d", "x.in"⟩ ⟨[], []⟩).1
    = (⟨[(toString ((h "d").natAbs % 10000) ++ "_" ++ "x",
          ⟨.str c1, .str c2⟩)],
        [⟨"d", "x.in"⟩]⟩, .duplicate) := by
  have h1 : load_testpoints h [⟨"d", "x.in", .text c1⟩] ⟨"d", "x.in"⟩ ⟨[], []⟩
      = (⟨[(toString ((h "d").natAbs % 10000) ++ "_" ++ "x",
            ⟨.str c1, .str noOutputSentinel⟩)],
          [⟨"d", "x.in"⟩]⟩,
         .loaded [toString ((h "d").natAbs % 10000) ++ "_" ++ "x"]) := by
    simp [load_testpoints, load_testpoint_paths, save_testpoint_paths,
      save_testpoints_data, dedupPathsGo, pexists, listdir, readTextIgnore,
      load_text_testpoints, find_related_testpoints,
      frInputLoop, frOutputLoop, dcontains, dlookup, dinsert, dupdate,
      sinsert, slookup, pyStem, pyExt, pySplitext, lastDotIdx, dirHashStr,
      isInName, isOutName, strEndsWithCI, strLower, strDropRight,
      subInToOut, subInToAns,
      List.filter, List.find?, List.foldl, List.any, List.contains, List.elem]
  rw [h1]
  have hne : ((⟨"d", "x.out"⟩ : PyPath) == ⟨"d", "x.in"⟩) = false := by decide
  simp [load_testpoints, load_testpoint_paths, save_testpoint_paths,
    save_testpoints_data, dedupPathsGo, pexists, listdir, readTextIgnore,
    load_text_testpoints, find_related_testpoints,
    frInputLoop, frOutputLoop, dcontains, dlookup, dinsert, dupdate,
    dpatchOutput, dpatchInput,
    sinsert, slookup, pyStem, pyExt, pySplitext, lastDotIdx, dirHashStr,
    isInName, isOutName, strEndsWithCI, strLower, strDropRight,
    subInToOut, subInToAns, subOutToIn, subOutToInput,
    List.filter, List.find?, List.foldl, List.any, List.contains, List.elem,
    hne]

/-- If any element of the `testCases` list is not a JSON object, the
`testCases` loop raises (`test_case.get` on a non-dict). -/
theorem tcLoop_error (base_name : String) :
    ∀ (l : List JValue) (i : Nat) (acc : Store),
      l.all jIsObj = false → tcLoop base_name l i acc = .error () := by
  intro l
  induction l with
  | nil => intro i acc hall; simp at hall
  | cons x rest ih =>
    intro i acc hall
    cases x with
    | obj o =>
      simp only [List.all_cons, jIsObj, Bool.true_and] at hall
      exact ih _ _ hall
    | null => rfl
    | bool b => rfl
    | num n => rfl
    | str s => rfl
    | arr elems => rfl

/-- C4 (counterexample).  A JSON file whose `testCases` array contains a
non-object element (here the string `"oops"` next to a well-shaped object
element): contrary to the claim, the malformed element is NOT skipped —
the loop raises `AttributeError`, the whole file's import fails with an
error report, and the well-shaped sibling element is not imported
either. -/
theorem C4_counterexample :
    load_testpoints (fun _ => (0 : Int))
      [⟨"d", "t.json",
        .json (.obj [("testCases",
          .arr [.str "oops", .obj [("input", .str "1")]])])⟩]
      ⟨"d", "t.json"⟩ ⟨[], []⟩
    = (⟨[], [⟨"d", "t.json"⟩]⟩, .loadError) := by
  rfl

/-- C4 (amended).  Shape-dependent behaviour of `load_json_testpoints`:
for the top-level-array shape and for the mapping shape (no `testCases`
key), elements or values lacking the expected object shape are skipped and
never fatal — the import succeeds for every such value, and a malformed
element contributes no record while the rest of the file still imports.
In the `testCases` shape, however, a non-object element raises and makes
the whole file's import fail. -/
theorem C4_amended (base : String) (items l : List JValue)
    (fields : List (String × JValue)) :
    ((load_json_testpoints [⟨"d", base, .json (.arr items)⟩]
        ⟨"d", base⟩ []).isOk = true)
    ∧ (jLookup fields "testCases" = none →
        (load_json_testpoints [⟨"d", base, .json (.obj fields)⟩]
          ⟨"d", base⟩ []).isOk = true)
    ∧ (l.all jIsObj = false →
        load_json_testpoints [⟨"d", base, .json (.obj [("testCases", .arr l)])⟩]
          ⟨"d", base⟩ [] = .error ())
    ∧ (∀ bad, jIsObj bad = false → ∀ i acc,
        arrLoop base (bad :: items) i acc = arrLoop base items (i + 1) acc)
    ∧ (∀ bad key, jIsObj bad = false → ∀ acc,
        mapLoop base ((key, bad) :: fields) acc = mapLoop base fields acc) := by
  refine ⟨?_, ?_, ?_, ?_, ?_⟩
  · simp [load_json_testpoints, readJson, List.find?, pexists, Except.isOk, Except.toBool]
  · intro hnone
    simp [load_json_testpoints, readJson, List.find?, pexists, hnone, Except.isOk, Except.toBool]
  · intro hall
    simp only [load_json_testpoints, readJson, List.find?]
    simp only [beq_self_eq_true, Bool.and_self, List.find?]
    simp [jLookup, pyIterElems, tcLoop_error base l 0 [] hall]
  · intro bad hbad i acc
    cases bad <;> simp_all [arrLoop, jIsObj]
  · intro bad key hbad acc
    cases bad <;> simp_all [mapLoop, jIsObj]

/-- C4 (witness).  The amended claim instantiated: array shape with a
null element and one record-shaped element succeeds; mapping shape with a
non-object value succeeds; `testCases` with a string element fails. -/
theorem C4_amended_witness :
    ((load_json_testpoints
        [⟨"d", "t.json", .json (.arr [.null, .obj [("input", .str "1")]])⟩]
        ⟨"d", "t.json"⟩ []).isOk = true)
    ∧ ((load_json_testpoints
        [⟨"d", "t.json", .json (.obj [("k", .num 1)])⟩]
        ⟨"d", "t.json"⟩ []).isOk = true)
    ∧ (load_json_testpoints
        [⟨"d", "t.json", .json (.obj [("testCases", .arr [.str "oops"])])⟩]
        ⟨"d", "t.json"⟩ [] = .error ())
    ∧ (arrLoop "t.json" [.null, .obj [("input", .str "1")]] 0 []
        = arrLoop "t.json" [.obj [("input", .str "1")]] 1 [])
    ∧ (mapLoop "t.json" [("k", .num 1)] [] = mapLoop "t.json" [] []) := by
  have hc := C4_amended "t.json" [.obj [("input", .str "1")]]
    [.str "oops"] [("k", .num 1)]
  exact ⟨(C4_amended "t.json" [.null, .obj [("input", .str "1")]] [] []).1,
    hc.2.1 rfl, hc.2.2.1 rfl, hc.2.2.2.1 .null rfl 0 [],
    hc.2.2.2.2 (.num 1) "k" rfl []⟩

/-- C6 (confirmed).  Importing an input file (`.in` or `.input`,
case-insensitive) produces one record whose `input` is the file's content
and whose `output` is the content of the same-base-name sibling with
extension `.out`, or failing that `.ans`, when such a sibling exists on
disk, and the literal sentinel `"未找到对应的输出文件"` when no such sibling
exists.  Four scenarios, for any session hash and any file contents:
`.out` sibling, `.ans` sibling (no `.out`), no sibling, and an
uppercase-`.INPUT` file with an `.out` sibling. -/
theorem C6_companion (h : String → Int) (c co : String) :
    load_testpoints h [⟨"d", "x.in", .text c⟩, ⟨"d", "x.out", .text co⟩]
      ⟨"d", "x.in"⟩ ⟨[], []⟩
    = (⟨[(toString ((h "d").natAbs % 10000) ++ "_" ++ "x", ⟨.str c, .str co⟩)],
        [⟨"d", "x.in"⟩]⟩,
       .loaded [toString ((h "d").natAbs % 10000) ++ "_" ++ "x"])
    ∧ load_testpoints h [⟨"d", "x.in", .text c⟩, ⟨"d", "x.ans", .text co⟩]
      ⟨"d", "x.in"⟩ ⟨[], []⟩
    = (⟨[(toString ((h "d").natAbs % 10000) ++ "_" ++ "x", ⟨.str c, .str co⟩)],
        [⟨"d", "x.in"⟩]⟩,
       .loaded [toString ((h "d").natAbs % 10000) ++ "_" ++ "x"])
    ∧ load_testpoints h [⟨"d", "y.in", .text c⟩] ⟨"d", "y.in"⟩ ⟨[], []⟩
    = (⟨[(toString ((h "d").natAbs % 10000) ++ "_" ++ "y",
          ⟨.str c, .str noOutputSentinel⟩)],
        [⟨"d", "y.in"⟩]⟩,
       .loaded [toString ((h "d").natAbs % 10000) ++ "_" ++ "y"])
    ∧ load_testpoints h [⟨"d", "x.INPUT", .text c⟩, ⟨"d", "x.out", .text co⟩]
      ⟨"d", "x.INPUT"⟩ ⟨[], []⟩
    = (⟨[(toString ((h "d").natAbs % 10000) ++ "_" ++ "x", ⟨.str c, .str co⟩)],
        [⟨"d", "x.INPUT"⟩]⟩,
       .loaded [toString ((h "d").natAbs % 10000) ++ "_" ++ "x"]) := by
  refine ⟨?_, ?_, ?_, ?_⟩ <;>
    simp [load_testpoints, load_testpoint_paths, save_testpoint_paths,
      save_testpoints_data, dedupPathsGo, pexists, listdir, readTextIgnore,
      load_text_testpoints, find_related_testpoints,
      frInputLoop, frOutputLoop, dcontains, dlookup, dinsert, dupdate,
      sinsert, slookup, pyStem, pyExt, pySplitext, lastDotIdx, dirHashStr,
      isInName, isOutName, strEndsWithCI, strLower, strDropRight,
      subInToOut, subInToAns,
      List.filter, List.find?, List.foldl, List.any, List.contains, List.elem]

/-- C8 (confirmed).  For a path whose extension is not `.json`, the
identifier under which the imported record is stored — and which is
reported as the newly added identifier — is the decimal rendering of
`abs(hash(directory))` modulo 10000, followed by an underscore, followed
by the base filename with its extension removed.  Holds for any session
hash function and any directory; shown for a generic extension (`x.txt`,
whole content becomes `input`) and for an input file with a dotted stem
(`p.q.in`, the extension is split at the last dot only). -/
theorem C8_identifier (h : String → Int) (dir c : String) :
    load_testpoints h [⟨dir, "x.txt", .text c⟩] ⟨dir, "x.txt"⟩ ⟨[], []⟩
    = (⟨[(toString ((h dir).natAbs % 10000) ++ "_" ++ "x", ⟨.str c, .str ""⟩)],
        [⟨dir, "x.txt"⟩]⟩,
       .loaded [toString ((h dir).natAbs % 10000) ++ "_" ++ "x"])
    ∧ load_testpoints h [⟨dir, "p.q.in", .text c⟩] ⟨dir, "p.q.in"⟩ ⟨[], []⟩
    = (⟨[(toString ((h dir).natAbs % 10000) ++ "_" ++ "p.q",
          ⟨.str c, .str noOutputSentinel⟩)],
        [⟨dir, "p.q.in"⟩]⟩,
       .loaded [toString ((h dir).natAbs % 10000) ++ "_" ++ "p.q"]) := by
  refine ⟨?_, ?_⟩ <;>
    simp [load_testpoints, load_testpoint_paths, save_testpoint_paths,
      save_testpoints_data, dedupPathsGo, pexists, listdir, readTextIgnore,
      load_text_testpoints, find_related_testpoints,
      frInputLoop, frOutputLoop, dcontains, dlookup, dinsert, dupdate,
      sinsert, slookup, pyStem, pyExt, pySplitext, lastDotIdx, dirHashStr,
      isInName, isOutName, strEndsWithCI, strLower, strDropRight,
      subInToOut, subInToAns,
      List.filter, List.find?, List.foldl, List.any, List.contains, List.elem]

/-- C10 (confirmed).  Plain-text and companion reads use
`errors='ignore'`, so decoding is a total function of the file's bytes:
for arbitrary byte lists `bs1` (the `.in` file) and `bs2` (its `.out`
companion) — including byte lists on which strict UTF-8 decoding fails,
such as `[255]` — the import completes without a decoding error and
stores the lossily decoded strings. -/
theorem C10_decode_total (bs1 bs2 : List Nat) :
    load_testpoints (fun _ => (0 : Int))
      [⟨"d", "x.in", .text (utf8DecodeIgnore bs1)⟩,
       ⟨"d", "x.out", .text (utf8DecodeIgnore bs2)⟩]
      ⟨"d", "x.in"⟩ ⟨[], []⟩
    = (⟨[("0_x", ⟨.str (utf8DecodeIgnore bs1), .str (utf8DecodeIgnore bs2)⟩)],
        [⟨"d", "x.in"⟩]⟩, .loaded ["0_x"])
    ∧ utf8DecodeStrict [255] = none
    ∧ utf8DecodeIgnore [255] = "" := by
  exact ⟨rfl, rfl, rfl⟩

/-- C9 (confirmed).  Every persisted `SourcePathList` write goes through
`save_testpoint_paths`, whose output satisfies the invariant: the stems
(base names without extension) of the saved entries are pairwise distinct;
every saved entry exists on disk at save time; each saved entry is exactly
the first path in the input list that exists and carries its stem (so the
first-listed path wins when two share a base name); the saved list is a
sublist of the input; and the other mutation site,
`save_testpoints_data`, also writes a `save_testpoint_paths` output. -/
theorem C9_savedlist_invariant (fs : FS) (paths : List PyPath) :
    ((save_testpoint_paths fs paths).map (fun p => pyStem p.base)).Nodup
    ∧ (∀ p ∈ save_testpoint_paths fs paths, pexists fs p = true)
    ∧ (∀ p ∈ save_testpoint_paths fs paths,
        (paths.filter (fun q => pexists fs q &&
          (pyStem q.base == pyStem p.base))).head? = some p)
    ∧ (save_testpoint_paths fs paths).Sublist paths
    ∧ (∀ cur saved, ∃ l, save_testpoints_data fs cur saved
        = save_testpoint_paths fs l) := by
  refine ⟨dedupPathsGo_stems_nodup fs paths [],
    fun p hp => dedupPathsGo_exists fs paths [] p hp,
    fun p hp => (dedupPathsGo_first fs paths [] p hp).2,
    dedupPathsGo_sublist fs paths [],
    fun cur saved => ⟨_, rfl⟩⟩

/-- C9 (witness).  The invariant instantiated on a save of
`[a/foo.in, b/foo.out, c/zap.in]` where `c/zap.in` does not exist: the
written list is `[a/foo.in]` (first existing path per stem). -/
theorem C9_savedlist_invariant_witness :
    ((save_testpoint_paths
        [⟨"a", "foo.in", .text "1"⟩, ⟨"b", "foo.out", .text "2"⟩]
        [⟨"a", "foo.in"⟩, ⟨"b", "foo.out"⟩, ⟨"c", "zap.in"⟩]).map
      (fun p => pyStem p.base)).Nodup
    ∧ pexists [⟨"a", "foo.in", .text "1"⟩, ⟨"b", "foo.out", .text "2"⟩]
        ⟨"a", "foo.in"⟩ = true
    ∧ ([⟨"a", "foo.in"⟩, ⟨"b", "foo.out"⟩, ⟨"c", "zap.in"⟩].filter
        (fun q => pexists [⟨"a", "foo.in", .text "1"⟩, ⟨"b", "foo.out", .text "2"⟩] q &&
          (pyStem q.base == pyStem (PyPath.mk "a" "foo.in").base))).head?
      = some ⟨"a", "foo.in"⟩
    ∧ (save_testpoint_paths
        [⟨"a", "foo.in", .text "1"⟩, ⟨"b", "foo.out", .text "2"⟩]
        [⟨"a", "foo.in"⟩, ⟨"b", "foo.out"⟩, ⟨"c", "zap.in"⟩]).Sublist
        [⟨"a", "foo.in"⟩, ⟨"b", "foo.out"⟩, ⟨"c", "zap.in"⟩]
    ∧ (∃ l, save_testpoints_data
        [⟨"a", "foo.in", .text "1"⟩, ⟨"b", "foo.out", .text "2"⟩]
        ⟨"a", "foo.in"⟩ [⟨"a", "foo.in"⟩, ⟨"b", "foo.out"⟩, ⟨"c", "zap.in"⟩]
        = save_testpoint_paths
          [⟨"a", "foo.in", .text "1"⟩, ⟨"b", "foo.out", .text "2"⟩] l) := by
  have hc := C9_savedlist_invariant
    [⟨"a", "foo.in", .text "1"⟩, ⟨"b", "foo.out", .text "2"⟩]
    [⟨"a", "foo.in"⟩, ⟨"b", "foo.out"⟩, ⟨"c", "zap.in"⟩]
  exact ⟨hc.1, hc.2.1 ⟨"a", "foo.in"⟩ (by decide),
    hc.2.2.1 ⟨"a", "foo.in"⟩ (by decide), hc.2.2.2.1,
    hc.2.2.2.2 ⟨"a", "foo.in"⟩ [⟨"a", "foo.in"⟩, ⟨"b", "foo.out"⟩, ⟨"c", "zap.in"⟩]⟩

/-- When the identifier already exists, `load_text_testpoints` patches the
record in place: `output` for an output-regex match, `input` otherwise. -/
theorem load_text_testpoints_patch (h : String → Int) (fs : FS) (p : PyPath)
    (d : Store) (c : String) (r : TPRecord)
    (hread : readTextIgnore fs p = .ok c)
    (hlk : dlookup d (dirHashStr h p.dir ++ "_" ++ pyStem p.base) = some r) :
    load_text_testpoints h fs p d =
      .ok (if isOutName p.base
        then dpatchOutput d (dirHashStr h p.dir ++ "_" ++ pyStem p.base) (.str c)
        else dpatchInput d (dirHashStr h p.dir ++ "_" ++ pyStem p.base) (.str c)) := by
  have hcont : dcontains d (dirHashStr h p.dir ++ "_" ++ pyStem p.base) = true :=
    dlookup_isSome_of_eq hlk
  simp only [load_text_testpoints, hread, hcont, if_true]
  by_cases hin : isInName p.base = true
  · rw [if_pos hin, isOutName_eq_false_of_isInName hin]
    simp
  · rw [if_neg hin]
    by_cases hout : isOutName p.base = true
    · rw [if_pos hout, if_pos hout]
    · rw [if_neg hout, if_neg hout]

theorem sinsert_keys_subset :
    ∀ (m : SMap) (k v x : String),
      x ∈ (sinsert m k v).map Prod.fst → x = k ∨ x ∈ m.map Prod.fst := by
  intro m
  induction m with
  | nil => intro k v x hx; simp [sinsert] at hx; exact Or.inl hx
  | cons e rest ih =>
    intro k v x hx
    unfold sinsert at hx
    by_cases hk : e.1 == k
    · rw [if_pos hk] at hx
      simp only [List.map_cons, List.mem_cons] at hx
      rcases hx with rfl | hx
      · exact Or.inr (by simp)
      · exact Or.inr (by simp [hx])
    · rw [if_neg hk] at hx
      simp only [List.map_cons, List.mem_cons] at hx
      rcases hx with rfl | hx
      · exact Or.inr (by simp)
      · rcases ih k v x hx with h1 | h1
        · exact Or.inl h1
        · exact Or.inr (by simp [h1])

/-- Keys of the `input_map`/`output_map` built from same-stem files are all
that common stem. -/
theorem foldl_sinsert_keys (cur : String) :
    ∀ (files : List String) (m : SMap),
      (∀ f ∈ files, pyStem f = cur) →
      (∀ x ∈ m.map Prod.fst, x = cur) →
      ∀ x ∈ (files.foldl (fun m f => sinsert m (pyStem f) f) m).map Prod.fst,
        x = cur := by
  intro files
  induction files with
  | nil => intro m _ hm x hx; exact hm x hx
  | cons f rest ih =>
    intro m hf hm x hx
    refine ih _ (fun g hg => hf g (List.mem_cons_of_mem _ hg)) ?_ x hx
    intro y hy
    rcases sinsert_keys_subset m (pyStem f) f y hy with rfl | hy2
    · exact hf f (List.mem_cons_self _ _)
    · exact hm y hy2

/-- The first `find_related_testpoints` loop is a no-op when every key
resolves to an identifier already present. -/
theorem frInputLoop_skip (fs : FS) (dir dh cur : String) (d : Store)
    (im om : SMap) (hd : dcontains d (dh ++ "_" ++ cur) = true) :
    ∀ (keys processed : List String) (acc : Store),
      (∀ k ∈ keys, k = cur) →
      frInputLoop fs dir dh d im om keys processed acc = .ok (processed, acc) := by
  intro keys
  induction keys with
  | nil => intro processed acc _; rfl
  | cons k rest ih =>
    intro processed acc hk
    have hkc : k = cur := hk k (List.mem_cons_self _ _)
    unfold frInputLoop
    rw [hkc]
    dsimp only
    rw [hd]
    simp only [Bool.true_or, if_true]
    exact ih processed acc (fun g hg => hk g (List.mem_cons_of_mem _ hg))

/-- The second `find_related_testpoints` loop is likewise a no-op. -/
theorem frOutputLoop_skip (fs : FS) (dir dh cur : String) (d : Store)
    (om im : SMap) (processed : List String)
    (hd : dcontains d (dh ++ "_" ++ cur) = true) :
    ∀ (keys : List String) (acc : Store),
      (∀ k ∈ keys, k = cur) →
      frOutputLoop fs dir dh d om im processed keys acc = .ok acc := by
  intro keys
  induction keys with
  | nil => intro acc _; rfl
  | cons k rest ih =>
    intro acc hk
    have hkc : k = cur := hk k (List.mem_cons_self _ _)
    unfold frOutputLoop
    by_cases hskip : (processed.contains k || (slookup im k).isSome) = true
    · rw [if_pos hskip]
      exact ih acc (fun g hg => hk g (List.mem_cons_of_mem _ hg))
    · rw [if_neg hskip]
      rw [hkc]
      dsimp only
      rw [hd]
      simp only [if_true]
      exact ih acc (fun g hg => hk g (List.mem_cons_of_mem _ hg))

/-- `find_related_testpoints` adds nothing when the directory-hash
identifier of the import's stem is already in the store: every candidate
file in the directory shares that stem, so every candidate identifier is
already present. -/
theorem find_related_testpoints_skip (h : String → Int) (fs : FS)
    (p : PyPath) (d : Store)
    (hd : dcontains d (dirHashStr h p.dir ++ "_" ++ pyStem p.base) = true) :
    find_related_testpoints h fs p d = .ok d := by
  simp only [find_related_testpoints]
  have hrel : ∀ f ∈ (listdir fs p.dir).filter
      (fun f => pyStem f == pyStem p.base), pyStem f = pyStem p.base := by
    intro f hf
    have := (List.mem_filter.mp hf).2
    exact beq_iff_eq.mp this
  have him : ∀ x ∈ (((listdir fs p.dir).filter
        (fun f => pyStem f == pyStem p.base)).filter
        (fun f => isInName f)).foldl
        (fun m f => sinsert m (pyStem f) f) [] |>.map Prod.fst,
      x = pyStem p.base := by
    refine foldl_sinsert_keys (pyStem p.base) _ [] ?_ (by simp)
    intro f hf
    exact hrel f (List.mem_filter.mp hf).1
  have hom : ∀ x ∈ (((listdir fs p.dir).filter
        (fun f => pyStem f == pyStem p.base)).filter
        (fun f => isOutName f)).foldl
        (fun m f => sinsert m (pyStem f) f) [] |>.map Prod.fst,
      x = pyStem p.base := by
    refine foldl_sinsert_keys (pyStem p.base) _ [] ?_ (by simp)
    intro f hf
    exact hrel f (List.mem_filter.mp hf).1
  rw [frInputLoop_skip fs p.dir (dirHashStr h p.dir) (pyStem p.base) d _ _ hd
    _ [] [] him]
  dsimp only
  rw [frOutputLoop_skip fs p.dir (dirHashStr h p.dir) (pyStem p.base) d _ _ [] hd
    _ [] hom]
  rfl

/-- C5 (confirmed).  For a plain-text import (extension other than
`.json`) whose computed identifier already exists in the mapping,
the import patches exactly one field of the existing record — `output` if the
base name matches the output regex, `input` otherwise — leaving the other
field untouched and adding no new entry: the key sequence of the mapping
is unchanged. -/
theorem C5_patch (h : String → Int) (dir name c : String) (d : Store)
    (r : TPRecord)
    (hjson : (strLower (pyExt name) == ".json") = false)
    (hlk : dlookup d (dirHashStr h dir ++ "_" ++ pyStem name) = some r) :
    ((load_testpoints h [⟨dir, name, .text c⟩] ⟨dir, name⟩ ⟨d, []⟩).1.data
      = (if isOutName name
         then dpatchOutput d (dirHashStr h dir ++ "_" ++ pyStem name) (.str c)
         else dpatchInput d (dirHashStr h dir ++ "_" ++ pyStem name) (.str c)))
    ∧ ((load_testpoints h [⟨dir, name, .text c⟩] ⟨dir, name⟩
        ⟨d, []⟩).1.data.map Prod.fst = d.map Prod.fst) := by
  have hread : readTextIgnore [⟨dir, name, .text c⟩] ⟨dir, name⟩ = .ok c := by
    simp [readTextIgnore, List.find?]
  have hload := load_text_testpoints_patch h [⟨dir, name, .text c⟩]
    ⟨dir, name⟩ d c r hread hlk
  have hkeys : (if isOutName name
      then dpatchOutput d (dirHashStr h dir ++ "_" ++ pyStem name) (.str c)
      else dpatchInput d (dirHashStr h dir ++ "_" ++ pyStem name)
        (.str c)).map Prod.fst = d.map Prod.fst := by
    by_cases hout : isOutName name = true
    · rw [if_pos hout]
      exact dpatchOutput_keys d _ _
    · rw [if_neg hout]
      exact dpatchInput_keys d _ _
  have hcont2 : dcontains
      (if isOutName name
       then dpatchOutput d (dirHashStr h dir ++ "_" ++ pyStem name) (.str c)
       else dpatchInput d (dirHashStr h dir ++ "_" ++ pyStem name) (.str c))
      (dirHashStr h dir ++ "_" ++ pyStem name) = true := by
    rw [dcontains_keys_eq hkeys]
    exact dlookup_isSome_of_eq hlk
  have hfr := find_related_testpoints_skip h [⟨dir, name, .text c⟩]
    ⟨dir, name⟩ _ hcont2
  have hfilter : ((if isOutName name
      then dpatchOutput d (dirHashStr h dir ++ "_" ++ pyStem name) (.str c)
      else dpatchInput d (dirHashStr h dir ++ "_" ++ pyStem name)
        (.str c)).map Prod.fst).filter (fun k => !dcontains d k) = [] :=
    keys_filter_contained hkeys
  simp only [load_testpoints, load_testpoint_paths, List.filter_nil,
    List.contains, List.elem, List.any_nil, Bool.false_eq_true, if_false,
    hjson]
  rw [hload]
  dsimp only
  rw [hfr]
  dsimp only
  rw [hfilter]
  simp only [List.isEmpty_nil, if_true]
  exact ⟨trivial, hkeys⟩

/-- C5 (witness).  The patch behaviour at a concrete input: importing
`d/x.out` (an output file) while the store already holds the record
`("0_x", {input: "A", output: "B"})` under the same identifier patches
only `output` and keeps the key sequence. -/
theorem C5_patch_witness :
    ((load_testpoints (fun _ => (0 : Int)) [⟨"d", "x.out", .text "C"⟩]
        ⟨"d", "x.out"⟩ ⟨[("0_x", ⟨.str "A", .str "B"⟩)], []⟩).1.data
      = (if isOutName "x.out"
         then dpatchOutput [("0_x", ⟨.str "A", .str "B"⟩)]
           (dirHashStr (fun _ => (0 : Int)) "d" ++ "_" ++ pyStem "x.out")
           (.str "C")
         else dpatchInput [("0_x", ⟨.str "A", .str "B"⟩)]
           (dirHashStr (fun _ => (0 : Int)) "d" ++ "_" ++ pyStem "x.out")
           (.str "C")))
    ∧ ((load_testpoints (fun _ => (0 : Int)) [⟨"d", "x.out", .text "C"⟩]
        ⟨"d", "x.out"⟩ ⟨[("0_x", ⟨.str "A", .str "B"⟩)], []⟩).1.data.map
          Prod.fst
      = [("0_x", (⟨.str "A", .str "B"⟩ : TPRecord))].map Prod.fst) :=
  C5_patch (fun _ => (0 : Int)) "d" "x.out" "C"
    [("0_x", ⟨.str "A", .str "B"⟩)] ⟨.str "A", .str "B"⟩ (by decide) rfl

/-- A path already present in the loaded `SourcePathList` is rejected
immediately: "已加载相同测试点数据", no state change. -/
theorem load_testpoints_duplicate_of_mem (h : String → Int) (fs : FS)
    (p : PyPath) (st : AppState)
    (hc : (load_testpoint_paths fs st.savedPaths).contains p = true) :
    load_testpoints h fs p st = (st, .duplicate) := by
  simp only [load_testpoints, hc, if_true]

/-- A successful text read implies the file exists. -/
theorem pexists_of_readTextIgnore (fs : FS) (p : PyPath) (s : String)
    (hr : readTextIgnore fs p = .ok s) : pexists fs p = true := by
  unfold readTextIgnore at hr
  cases hfind : fs.find? (fun e => e.dir == p.dir && e.base == p.base) with
  | none => rw [hfind] at hr; cases hr
  | some e =>
    have hpred : (e.dir == p.dir && e.base == p.base) = true :=
      @List.find?_some FSEntry (fun e => e.dir == p.dir && e.base == p.base)
        e fs hfind
    exact List.any_eq_true.mpr ⟨e, List.mem_of_find?_eq_some hfind, hpred⟩

/-- A successful JSON read implies the file exists. -/
theorem pexists_of_readJson (fs : FS) (p : PyPath) (v : JValue)
    (hr : readJson fs p = .ok v) : pexists fs p = true := by
  unfold readJson at hr
  cases hfind : fs.find? (fun e => e.dir == p.dir && e.base == p.base) with
  | none => rw [hfind] at hr; cases hr
  | some e =>
    have hpred : (e.dir == p.dir && e.base == p.base) = true :=
      @List.find?_some FSEntry (fun e => e.dir == p.dir && e.base == p.base)
        e fs hfind
    exact List.any_eq_true.mpr ⟨e, List.mem_of_find?_eq_some hfind, hpred⟩

/-- A successful `load_text_testpoints` implies the imported file exists. -/
theorem pexists_of_load_text (h : String → Int) (fs : FS) (p : PyPath)
    (d d1 : Store) (hl : load_text_testpoints h fs p d = .ok d1) :
    pexists fs p = true := by
  unfold load_text_testpoints at hl
  cases hr : readTextIgnore fs p with
  | error e => rw [hr] at hl; cases hl
  | ok s => exact pexists_of_readTextIgnore fs p s hr

/-- A successful `load_json_testpoints` implies the imported file exists. -/
theorem pexists_of_load_json (fs : FS) (p : PyPath) (d d1 : Store)
    (hl : load_json_testpoints fs p d = .ok d1) : pexists fs p = true := by
  unfold load_json_testpoints at hl
  cases hr : readJson fs p with
  | error e => rw [hr] at hl; cases hl
  | ok v => exact pexists_of_readJson fs p v hr

/-- After a successful import whose path was freshly registered, re-saving
is stable: `save_testpoints_data` maps the just-saved list to itself, and
the saved list still contains the path. -/
theorem save_testpoints_data_stable (fs : FS) (p : PyPath)
    (hex : pexists fs p = true) (A : List PyPath)
    (hstem : ∀ q ∈ A, pyStem q.base ≠ pyStem p.base) :
    p ∈ dedupPathsGo fs (A ++ [p]) []
    ∧ save_testpoints_data fs p (dedupPathsGo fs (A ++ [p]) [])
      = dedupPathsGo fs (A ++ [p]) [] := by
  have hp1 : p ∈ dedupPathsGo fs (A ++ [p]) [] :=
    mem_dedupPathsGo_append_last fs p hex A [] hstem (by simp)
  have hnd1 := dedupPathsGo_stems_nodup fs (A ++ [p]) []
  have hex1 : ∀ q ∈ dedupPathsGo fs (A ++ [p]) [], pexists fs q = true :=
    fun q hq => dedupPathsGo_exists fs (A ++ [p]) [] q hq
  have hfilt : load_testpoint_paths fs (dedupPathsGo fs (A ++ [p]) [])
      = dedupPathsGo fs (A ++ [p]) [] := by
    unfold load_testpoint_paths
    exact List.filter_eq_self.mpr hex1
  refine ⟨hp1, ?_⟩
  unfold save_testpoints_data
  rw [hfilt]
  dsimp only
  rw [if_pos hex]
  rw [if_pos (List.elem_iff.mpr hp1)]
  have hid : dedupPathsGo fs (dedupPathsGo fs (A ++ [p]) []) []
      = dedupPathsGo fs (A ++ [p]) [] :=
    dedupPathsGo_id fs _ [] hex1 hnd1 (fun q _ => List.not_mem_nil _)
  unfold save_testpoint_paths
  rw [hid, hid]

/-- C7 (confirmed).  Import is idempotent per path: after a first
successful import of `p` (one that reported newly loaded identifiers) from
a state in which no registered path shared `p`'s base name, importing the
same path again is the guarded duplicate no-op — it reports
"duplicate data loaded", yields no newly added identifiers (the guarded
branch returns before any merge), and the whole state, in particular the
identifier-to-record mapping, is unchanged. -/
theorem C7_idempotent (h : String → Int) (fs : FS) (p : PyPath)
    (st : AppState) (ns : List String)
    (hstem : ∀ q ∈ load_testpoint_paths fs st.savedPaths,
      pyStem q.base ≠ pyStem p.base)
    (hrun : (load_testpoints h fs p st).2 = .loaded ns) :
    load_testpoints h fs p (load_testpoints h fs p st).1
      = ((load_testpoints h fs p st).1, .duplicate) := by
  rcases hE : load_testpoints h fs p st with ⟨st1, r1⟩
  rw [hE] at hrun
  dsimp only at hrun
  subst hrun
  dsimp only
  have hmem : ¬ (load_testpoint_paths fs st.savedPaths).contains p = true := by
    intro hc
    rw [load_testpoints_duplicate_of_mem h fs p st hc] at hE
    simp only [Prod.mk.injEq] at hE
    cases hE.2
  have hany : (load_testpoint_paths fs st.savedPaths).any
      (fun q => pyStem q.base == pyStem p.base) = false := by
    rw [List.any_eq_false]
    intro q hq
    exact fun hbeq => hstem q hq (beq_iff_eq.mp hbeq)
  simp only [load_testpoints] at hE
  rw [if_neg hmem] at hE
  rw [hany] at hE
  simp only [Bool.false_eq_true, if_false] at hE
  cases hL : (if (strLower (pyExt p.base) == ".json") = true
      then load_json_testpoints fs p st.data
      else load_text_testpoints h fs p st.data) with
  | error e =>
    rw [hL] at hE
    simp only [Prod.mk.injEq] at hE
    cases hE.2
  | ok d1 =>
    rw [hL] at hE
    dsimp only at hE
    have hex : pexists fs p = true := by
      by_cases hj : (strLower (pyExt p.base) == ".json") = true
      · rw [if_pos hj] at hL
        exact pexists_of_load_json fs p _ d1 hL
      · rw [if_neg hj] at hL
        exact pexists_of_load_text h fs p _ d1 hL
    cases hF : find_related_testpoints h fs p d1 with
    | error e =>
      rw [hF] at hE
      simp only [Prod.mk.injEq] at hE
      cases hE.2
    | ok d2 =>
      rw [hF] at hE
      dsimp only at hE
      by_cases hN : ((d2.map Prod.fst).filter
          (fun k => !dcontains st.data k)).isEmpty = true
      · rw [if_pos hN] at hE
        simp only [Prod.mk.injEq] at hE
        cases hE.2
      · rw [if_neg hN] at hE
        simp only [Prod.mk.injEq] at hE
        obtain ⟨hst1, -⟩ := hE
        obtain ⟨hp1, hstable⟩ := save_testpoints_data_stable fs p hex
          (load_testpoint_paths fs st.savedPaths)
          (fun q hq => hstem q hq)
        rw [← hst1]
        apply load_testpoints_duplicate_of_mem
        dsimp only
        simp only [save_testpoint_paths]
        rw [hstable]
        have hfilt : load_testpoint_paths fs
            (dedupPathsGo fs (load_testpoint_paths fs st.savedPaths ++ [p]) [])
            = dedupPathsGo fs
              (load_testpoint_paths fs st.savedPaths ++ [p]) [] := by
          unfold load_testpoint_paths
          exact List.filter_eq_self.mpr
            (fun q hq => dedupPathsGo_exists fs _ [] q hq)
        rw [hfilt]
        exact List.elem_iff.mpr hp1

/-- C7 (witness).  Idempotence at a concrete input: after importing
`d/x.in` into the empty state, importing it again reports the duplicate
and leaves the state unchanged. -/
theorem C7_idempotent_witness :
    load_testpoints (fun _ => (0 : Int)) [⟨"d", "x.in", .text "1"⟩]
      ⟨"d", "x.in"⟩
      (load_testpoints (fun _ => (0 : Int)) [⟨"d", "x.in", .text "1"⟩]
        ⟨"d", "x.in"⟩ ⟨[], []⟩).1
    = ((load_testpoints (fun _ => (0 : Int)) [⟨"d", "x.in", .text "1"⟩]
        ⟨"d", "x.in"⟩ ⟨[], []⟩).1, .duplicate) :=
  C7_idempotent (fun _ => (0 : Int)) [⟨"d", "x.in", .text "1"⟩]
    ⟨"d", "x.in"⟩ ⟨[], []⟩ ["0_x"] (by decide) (by decide)
